import Mathlib

/-!
A shallow embedding of the URL-shortener service (`app/main.py`, `app/sql.py`,
`app/utils.py`, `app/redis.py`) and proofs about its link subsystem.

Modelling conventions:
* Timestamps are naturals counting microseconds (Python `datetime` has
  microsecond precision; `total_seconds()` followed by `int(...)` truncation
  becomes natural division by `1000000`).  The several `datetime.now()` calls
  inside one request handler are modelled by a single per-request instant
  `now`, i.e. a request is atomic with respect to the clock.
* The relational store is the list of `Link` rows; the redis cache is a list
  of entries carrying an absolute expiry instant.  `redis.get` returns a value
  only strictly before the expiry instant, matching `SETEX` semantics, and
  `redis.setex` with `seconds = 0` fails (redis rejects a non-positive expire
  time), which in the Python code is an uncaught exception.
* Each endpoint becomes a total function returning the HTTP-level outcome
  together with the successor state; raising an `HTTPException` (or any
  uncaught exception) leaves the state it had not yet committed unchanged,
  as the surrounding session is rolled back on close.
* The statistics write (`db.query(...).update(...); db.commit()`) is an
  external database call that can fail at runtime; the parameter `ck` of
  `links_redirect` tells whether that commit succeeds.  The Python handler
  has no `try`/`except` around it, so a failing commit propagates as an
  uncaught exception.
-/

namespace Shortener

/-- A row of the `link` table (`app/sql.py`, class `Link`). -/
structure Link where
  id : String
  userId : Option String
  url : String
  accessCount : Nat
  lastAccessAt : Option Nat
  createdAt : Nat
  updatedAt : Nat
  expireAt : Nat
deriving DecidableEq, Repr

/-- One redis key with its value and absolute expiry instant (µs). -/
structure CacheEntry where
  key : String
  val : String
  expiresAt : Nat
deriving DecidableEq, Repr

/-- The state the link endpoints read and write: the SQL store and redis. -/
structure AppState where
  store : List Link
  cache : List CacheEntry
deriving DecidableEq, Repr

/-- Outcome of a request that does not end in a 2xx/3xx response:
an `HTTPException(status, detail)` or an uncaught exception. -/
inductive ApiError where
  | http : Nat → String → ApiError
  | unhandled : String → ApiError
deriving DecidableEq, Repr

instance {ε α : Type} [DecidableEq ε] [DecidableEq α] : DecidableEq (Except ε α) :=
  fun a b =>
    match a, b with
    | .ok x, .ok y => if h : x = y then isTrue (by rw [h]) else isFalse (by simp [h])
    | .error x, .error y =>
      if h : x = y then isTrue (by rw [h]) else isFalse (by simp [h])
    | .ok _, .error _ => isFalse (by simp)
    | .error _, .ok _ => isFalse (by simp)

/-- `redis.get(key)` at instant `now`: a key is visible strictly before its
expiry instant. -/
def redisGet (now : Nat) (key : String) (cache : List CacheEntry) : Option String :=
  (cache.find? fun e => decide (e.key = key ∧ now < e.expiresAt)).map (·.val)

/-- `redis.setex(key, secs, val)` at instant `now` (assumes `0 < secs`,
which redis enforces): replaces any entry under `key`. -/
def redisSetex (now : Nat) (key : String) (secs : Nat) (val : String)
    (cache : List CacheEntry) : List CacheEntry :=
  ⟨key, val, now + secs * 1000000⟩ :: cache.filter fun e => decide (e.key ≠ key)

/-- `redis.delete(key)`. -/
def redisDelete (key : String) (cache : List CacheEntry) : List CacheEntry :=
  cache.filter fun e => decide (e.key ≠ key)

/-- The 62-symbol alphabet of `generate_short_code`:
`string.ascii_letters + string.digits`. -/
def shortCodeAlphabet : List Char :=
  "abcdefghijklmnopqrstuvwxyzABCDEFGHIJKLMNOPQRSTUVWXYZ0123456789".toList

theorem shortCodeAlphabet_length : shortCodeAlphabet.length = 62 := by decide

/-- `generate_short_code(k)` (`app/utils.py`): `k` draws from the alphabet.
The random source `random.choices` is modelled by the draw function `pick`
giving the alphabet index of each position. -/
def generate_short_code (pick : Nat → Fin 62) (k : Nat) : String :=
  String.mk ((List.range k).map fun i =>
    shortCodeAlphabet.get (Fin.cast shortCodeAlphabet_length.symm (pick i)))

/-- The id a row ends up with: `link.id = request.alias` only under
`if request.alias:` — Python truthiness, so the empty string counts as
absent — otherwise the column default `generate_short_code` fires. -/
def shortenId (alias? : Option String) (cand : String) : String :=
  match alias? with
  | some a => if a = "" then cand else a
  | none => cand

/-- `POST /links/shorten` (`links_shorten`).  `cand` is the short code the
column default `generate_short_code` produces at insert time when the row
carries no explicit id.  A duplicate primary key makes `db.commit()` raise
`IntegrityError`, answered with 409. -/
def links_shorten (now : Nat) (userId : Option String) (url : String)
    (expireAt : Nat) (alias? : Option String) (cand : String)
    (s : AppState) : Except ApiError String × AppState :=
  if expireAt < now then
    (.error (.http 400 "expire_at must be in the future"), s)
  else if (s.store.find? fun l => decide (l.id = shortenId alias? cand)).isSome then
    (.error (.http 409 "Alias already exists"), s)
  else
    (.ok (shortenId alias? cand),
     { s with store := s.store ++
        [{ id := shortenId alias? cand, userId := userId, url := url,
           accessCount := 0, lastAccessAt := none, createdAt := now,
           updatedAt := now, expireAt := expireAt }] })

/-- The TTL argument `int((link.expire_at - datetime.now()).total_seconds())`
passed to `redis.setex` on the cache-miss path, in whole seconds. -/
def cacheTtlSecs (expireAt now : Nat) : Nat := (expireAt - now) / 1000000

/-- The `access_count`/`last_access_at` bulk update run on every redirect
(`db.query(Link).filter(Link.id == link_id).update(...)`). -/
def recordAccess (now : Nat) (linkId : String) (store : List Link) : List Link :=
  store.map fun l =>
    if l.id = linkId then
      { l with accessCount := l.accessCount + 1, lastAccessAt := some now }
    else l

/-- The cache-miss continuation of `links_redirect`: query the store for a
resolvable row, populate the cache, then fall through to the stats update. -/
def redirectStorePath (ck : Bool) (now : Nat) (linkId : String)
    (s : AppState) : Except ApiError String × AppState :=
  match s.store.find? fun l => decide (l.id = linkId ∧ now < l.expireAt) with
  | none => (.error (.http 404 "Link not found"), s)
  | some l =>
    if cacheTtlSecs l.expireAt now = 0 then
      -- redis rejects `SETEX` with a non-positive expire time; the handler
      -- does not catch it, so the request dies before the stats update
      (.error (.unhandled "invalid expire time in setex"), s)
    else if ck then
      (.ok l.url,
       { store := recordAccess now linkId s.store,
         cache := redisSetex now ("link:" ++ linkId)
                    (cacheTtlSecs l.expireAt now) l.url s.cache })
    else
      (.error (.unhandled "stat update commit failed"),
       { s with cache := redisSetex now ("link:" ++ linkId)
                  (cacheTtlSecs l.expireAt now) l.url s.cache })

/-- `GET /links/{link_id}` (`links_redirect`).  `ck` is whether the
`db.commit()` of the stats update succeeds at runtime. -/
def links_redirect (ck : Bool) (now : Nat) (linkId : String)
    (s : AppState) : Except ApiError String × AppState :=
  match redisGet now ("link:" ++ linkId) s.cache with
  | some u =>
    if u = "" then
      -- `if cached_url:` — an empty cached string is falsy, so the handler
      -- falls through to the store query
      redirectStorePath ck now linkId s
    else if ck then
      (.ok u, { s with store := recordAccess now linkId s.store })
    else
      (.error (.unhandled "stat update commit failed"), s)
  | none => redirectStorePath ck now linkId s

/-- The response body of the read endpoints (`LinkDTO`/`map_link_to_dto`). -/
structure LinkDTO where
  id : String
  url : String
  accessCount : Nat
  lastAccessAt : Option Nat
  createdAt : Nat
  updatedAt : Nat
  expireAt : Nat
deriving DecidableEq, Repr

def map_link_to_dto (l : Link) : LinkDTO :=
  { id := l.id, url := l.url, accessCount := l.accessCount,
    lastAccessAt := l.lastAccessAt, createdAt := l.createdAt,
    updatedAt := l.updatedAt, expireAt := l.expireAt }

/-- The ownership-scoped lookup shared by stats/update/delete:
`db.query(Link).filter(Link.id == link_id, Link.user_id == user_id).first()`.
A SQL comparison with a NULL `user_id` never matches, so unowned rows are
invisible here. -/
def findOwned (linkId userId : String) (store : List Link) : Option Link :=
  store.find? fun l => decide (l.id = linkId ∧ l.userId = some userId)

/-- `GET /links/{link_id}/stats` (`links_stats`): read-only. -/
def links_stats (userId linkId : String) (s : AppState) : Except ApiError LinkDTO :=
  match findOwned linkId userId s.store with
  | none => .error (.http 404 "Link not found")
  | some l => .ok (map_link_to_dto l)

/-- `PUT /links/{link_id}` (`links_update`): rewrites `url` and `updated_at`
of the owned row.  Note: the handler never touches redis. -/
def links_update (now : Nat) (userId linkId : String) (newUrl : String)
    (s : AppState) : Except ApiError Unit × AppState :=
  match findOwned linkId userId s.store with
  | none => (.error (.http 404 "Link not found"), s)
  | some _ =>
    (.ok (),
     { s with store := s.store.map fun l =>
        if l.id = linkId ∧ l.userId = some userId then
          { l with url := newUrl, updatedAt := now }
        else l })

/-- `DELETE /links/{link_id}` (`links_delete`): deletes the owned row, then
drops the cache key. -/
def links_delete (userId linkId : String) (s : AppState) :
    Except ApiError Unit × AppState :=
  match findOwned linkId userId s.store with
  | none => (.error (.http 404 "Link not found"), s)
  | some _ =>
    (.ok (),
     { store := s.store.filter fun l => decide (l.id ≠ linkId),
       cache := redisDelete ("link:" ++ linkId) s.cache })

/-- States the service can actually be in: the empty store and cache, and
everything the mutating endpoints produce from there, at arbitrary request
instants and with either outcome of the stats commit. -/
inductive Reachable : AppState → Prop where
  | init : Reachable ⟨[], []⟩
  | shorten : ∀ s now userId url expireAt alias? cand, Reachable s →
      Reachable (links_shorten now userId url expireAt alias? cand s).2
  | redirect : ∀ s ck now linkId, Reachable s →
      Reachable (links_redirect ck now linkId s).2
  | update : ∀ s now userId linkId newUrl, Reachable s →
      Reachable (links_update now userId linkId newUrl s).2
  | delete : ∀ s userId linkId, Reachable s →
      Reachable (links_delete userId linkId s).2

/-! ### Invariants of the reachable states

Every cache entry belongs to a still-stored link and dies no later than that
link's `expire_at`; primary-key uniqueness of `link.id` is store-enforced. -/

def CacheBound (s : AppState) : Prop :=
  ∀ e ∈ s.cache, ∃ l ∈ s.store, e.key = "link:" ++ l.id ∧ e.expiresAt ≤ l.expireAt

def UniqueIds (s : AppState) : Prop :=
  ∀ l1 ∈ s.store, ∀ l2 ∈ s.store, l1.id = l2.id → l1 = l2

theorem link_key_inj {a b : String} (h : "link:" ++ a = "link:" ++ b) : a = b := by
  have hd : "link:".data ++ a.data = "link:".data ++ b.data := congrArg String.data h
  exact String.ext (List.append_cancel_left hd)

theorem ttl_le_remaining {now expireAt : Nat} (h : now ≤ expireAt) :
    now + cacheTtlSecs expireAt now * 1000000 ≤ expireAt := by
  have := Nat.div_mul_le_self (expireAt - now) 1000000
  unfold cacheTtlSecs
  omega

theorem exists_mem_map_of_id_expire {store : List Link} (f : Link → Link)
    (hid : ∀ l, (f l).id = l.id) (hexp : ∀ l, (f l).expireAt = l.expireAt)
    {l : Link} (hl : l ∈ store) :
    ∃ l', l' ∈ store.map f ∧ l'.id = l.id ∧ l'.expireAt = l.expireAt :=
  ⟨f l, List.mem_map_of_mem f hl, hid l, hexp l⟩

theorem uniqueIds_map {store : List Link} {f : Link → Link}
    (hid : ∀ l, (f l).id = l.id)
    (h : ∀ l1 ∈ store, ∀ l2 ∈ store, l1.id = l2.id → l1 = l2) :
    ∀ m1 ∈ store.map f, ∀ m2 ∈ store.map f, m1.id = m2.id → m1 = m2 := by
  intro m1 hm1 m2 hm2 heq
  obtain ⟨l1, hl1, rfl⟩ := List.mem_map.mp hm1
  obtain ⟨l2, hl2, rfl⟩ := List.mem_map.mp hm2
  have hids : l1.id = l2.id := (hid l1).symm.trans (heq.trans (hid l2))
  exact congrArg f (h l1 hl1 l2 hl2 hids)

theorem recordAccess_fun_id (now : Nat) (linkId : String) (l : Link) :
    (if l.id = linkId then
      { l with accessCount := l.accessCount + 1, lastAccessAt := some now }
    else l).id = l.id := by
  by_cases h : l.id = linkId <;> simp [h]

theorem recordAccess_fun_expire (now : Nat) (linkId : String) (l : Link) :
    (if l.id = linkId then
      { l with accessCount := l.accessCount + 1, lastAccessAt := some now }
    else l).expireAt = l.expireAt := by
  by_cases h : l.id = linkId <;> simp [h]

/-- Whatever `redirectStorePath` leaves in the cache is an old entry or the
freshly populated one, whose TTL is the positive `cacheTtlSecs` of a
resolvable stored row. -/
theorem storePath_cache_mem (ck : Bool) (now : Nat) (linkId : String)
    (s : AppState) (e : CacheEntry)
    (he : e ∈ (redirectStorePath ck now linkId s).2.cache) :
    e ∈ s.cache ∨ ∃ l, l ∈ s.store ∧ l.id = linkId ∧ now < l.expireAt
      ∧ 0 < cacheTtlSecs l.expireAt now
      ∧ e = ⟨"link:" ++ linkId, l.url, now + cacheTtlSecs l.expireAt now * 1000000⟩ := by
  unfold redirectStorePath at he
  split at he
  · exact Or.inl he
  · next l hfind =>
    have hl : l ∈ s.store := List.mem_of_find?_eq_some hfind
    have hp := List.find?_some hfind
    rw [decide_eq_true_eq] at hp
    split at he
    · exact Or.inl he
    · next h0 =>
      have hmem : e ∈ redisSetex now ("link:" ++ linkId)
          (cacheTtlSecs l.expireAt now) l.url s.cache := by
        split at he
        · exact he
        · exact he
      unfold redisSetex at hmem
      rcases List.mem_cons.mp hmem with h | h
      · exact Or.inr ⟨l, hl, hp.1, hp.2, Nat.pos_of_ne_zero h0, h⟩
      · exact Or.inl (List.mem_filter.mp h).1

theorem redirect_cache_mem (ck : Bool) (now : Nat) (linkId : String)
    (s : AppState) (e : CacheEntry)
    (he : e ∈ (links_redirect ck now linkId s).2.cache) :
    e ∈ s.cache ∨ ∃ l, l ∈ s.store ∧ l.id = linkId ∧ now < l.expireAt
      ∧ 0 < cacheTtlSecs l.expireAt now
      ∧ e = ⟨"link:" ++ linkId, l.url, now + cacheTtlSecs l.expireAt now * 1000000⟩ := by
  unfold links_redirect at he
  split at he
  · split at he
    · exact storePath_cache_mem ck now linkId s e he
    · split at he
      · exact Or.inl he
      · exact Or.inl he
  · exact storePath_cache_mem ck now linkId s e he

theorem storePath_store_shape (ck : Bool) (now : Nat) (linkId : String)
    (s : AppState) :
    (redirectStorePath ck now linkId s).2.store = s.store
    ∨ (redirectStorePath ck now linkId s).2.store = recordAccess now linkId s.store := by
  unfold redirectStorePath
  split
  · exact Or.inl rfl
  · split
    · exact Or.inl rfl
    · split
      · exact Or.inr rfl
      · exact Or.inl rfl

theorem redirect_store_shape (ck : Bool) (now : Nat) (linkId : String)
    (s : AppState) :
    (links_redirect ck now linkId s).2.store = s.store
    ∨ (links_redirect ck now linkId s).2.store = recordAccess now linkId s.store := by
  unfold links_redirect
  split
  · split
    · exact storePath_store_shape ck now linkId s
    · split
      · exact Or.inr rfl
      · exact Or.inl rfl
  · exact storePath_store_shape ck now linkId s

theorem inv_shorten (now : Nat) (userId : Option String) (url : String)
    (expireAt : Nat) (alias? : Option String) (cand : String) {s : AppState}
    (h : CacheBound s ∧ UniqueIds s) :
    CacheBound (links_shorten now userId url expireAt alias? cand s).2
    ∧ UniqueIds (links_shorten now userId url expireAt alias? cand s).2 := by
  obtain ⟨hcb, hun⟩ := h
  unfold links_shorten
  split
  · exact ⟨hcb, hun⟩
  · split
    · exact ⟨hcb, hun⟩
    · next hfind =>
      have hnone : ∀ l ∈ s.store, l.id ≠ shortenId alias? cand := by
        intro l hl
        have := List.find?_eq_none.mp (Option.not_isSome_iff_eq_none.mp hfind) l hl
        simpa using this
      constructor
      · intro e he
        obtain ⟨l, hl, hk, hexp⟩ := hcb e he
        exact ⟨l, List.mem_append_left _ hl, hk, hexp⟩
      · intro l1 h1 l2 h2 heq
        rcases List.mem_append.mp h1 with h1 | h1 <;>
          rcases List.mem_append.mp h2 with h2 | h2
        · exact hun l1 h1 l2 h2 heq
        · rw [List.mem_singleton.mp h2] at heq
          exact absurd heq (hnone l1 h1)
        · rw [List.mem_singleton.mp h1] at heq
          exact absurd heq.symm (hnone l2 h2)
        · rw [List.mem_singleton.mp h1, List.mem_singleton.mp h2]

theorem inv_redirect (ck : Bool) (now : Nat) (linkId : String) {s : AppState}
    (h : CacheBound s ∧ UniqueIds s) :
    CacheBound (links_redirect ck now linkId s).2
    ∧ UniqueIds (links_redirect ck now linkId s).2 := by
  obtain ⟨hcb, hun⟩ := h
  have hshape := redirect_store_shape ck now linkId s
  have hwit : ∀ l ∈ s.store,
      ∃ l', l' ∈ (links_redirect ck now linkId s).2.store
        ∧ l'.id = l.id ∧ l'.expireAt = l.expireAt := by
    intro l hl
    rcases hshape with hsh | hsh
    · exact ⟨l, hsh ▸ hl, rfl, rfl⟩
    · rw [hsh]
      exact exists_mem_map_of_id_expire _ (recordAccess_fun_id now linkId)
        (recordAccess_fun_expire now linkId) hl
  constructor
  · intro e he
    rcases redirect_cache_mem ck now linkId s e he with hold | ⟨l, hl, hid, hlt, _, hdef⟩
    · obtain ⟨l, hl, hk, hexp⟩ := hcb e hold
      obtain ⟨l', hl', hid', hexp'⟩ := hwit l hl
      exact ⟨l', hl', by rw [hk, hid'], by rw [← hexp'] at hexp; exact hexp⟩
    · obtain ⟨l', hl', hid', hexp'⟩ := hwit l hl
      refine ⟨l', hl', ?_, ?_⟩
      · rw [hdef, hid', hid]
      · rw [hdef, hexp']
        exact ttl_le_remaining (Nat.le_of_lt hlt)
  · intro l1 h1 l2 h2 heq
    rcases hshape with hsh | hsh
    · rw [hsh] at h1 h2
      exact hun l1 h1 l2 h2 heq
    · rw [hsh] at h1 h2
      exact uniqueIds_map (recordAccess_fun_id now linkId) hun l1 h1 l2 h2 heq

theorem inv_update (now : Nat) (userId linkId newUrl : String) {s : AppState}
    (h : CacheBound s ∧ UniqueIds s) :
    CacheBound (links_update now userId linkId newUrl s).2
    ∧ UniqueIds (links_update now userId linkId newUrl s).2 := by
  obtain ⟨hcb, hun⟩ := h
  unfold links_update
  split
  · exact ⟨hcb, hun⟩
  · have hid : ∀ l : Link,
        (if l.id = linkId ∧ l.userId = some userId then
          { l with url := newUrl, updatedAt := now } else l).id = l.id := by
      intro l; by_cases hc : l.id = linkId ∧ l.userId = some userId <;> simp [hc]
    have hexp : ∀ l : Link,
        (if l.id = linkId ∧ l.userId = some userId then
          { l with url := newUrl, updatedAt := now } else l).expireAt = l.expireAt := by
      intro l; by_cases hc : l.id = linkId ∧ l.userId = some userId <;> simp [hc]
    constructor
    · intro e he
      obtain ⟨l, hl, hk, hb⟩ := hcb e he
      obtain ⟨l', hl', hid', hexp'⟩ := exists_mem_map_of_id_expire _ hid hexp hl
      exact ⟨l', hl', by rw [hk, hid'], by rw [hexp']; exact hb⟩
    · exact uniqueIds_map hid hun

theorem inv_delete (userId linkId : String) {s : AppState}
    (h : CacheBound s ∧ UniqueIds s) :
    CacheBound (links_delete userId linkId s).2
    ∧ UniqueIds (links_delete userId linkId s).2 := by
  obtain ⟨hcb, hun⟩ := h
  unfold links_delete
  split
  · exact ⟨hcb, hun⟩
  · constructor
    · intro e he
      have hmem := List.mem_filter.mp he
      have hkey : e.key ≠ "link:" ++ linkId := by simpa using hmem.2
      obtain ⟨l, hl, hk, hb⟩ := hcb e hmem.1
      have hlid : l.id ≠ linkId := by
        intro hcontra
        exact hkey (by rw [hk, hcontra])
      exact ⟨l, List.mem_filter.mpr ⟨hl, by simpa using hlid⟩, hk, hb⟩
    · intro l1 h1 l2 h2 heq
      exact hun l1 (List.mem_filter.mp h1).1 l2 (List.mem_filter.mp h2).1 heq

theorem reachable_inv {s : AppState} (h : Reachable s) :
    CacheBound s ∧ UniqueIds s := by
  induction h with
  | init =>
    constructor
    · intro e he; exact absurd he (List.not_mem_nil e)
    · intro l1 h1; exact absurd h1 (List.not_mem_nil l1)
  | shorten s now userId url expireAt alias? cand _ ih =>
    exact inv_shorten now userId url expireAt alias? cand ih
  | redirect s ck now linkId _ ih => exact inv_redirect ck now linkId ih
  | update s now userId linkId newUrl _ ih =>
    exact inv_update now userId linkId newUrl ih
  | delete s userId linkId _ ih => exact inv_delete userId linkId ih

/-! ### Concrete scenario states used to instantiate the theorems -/

/-- One link `abc → http://old` owned by `u1`, created at instant 0 with
`expire_at` 9000 s later. -/
def scState0 : AppState :=
  (links_shorten 0 (some "u1") "http://old" 9000000000 (some "abc") "zzzzzzzzzz"
    ⟨[], []⟩).2

/-- `scState0` after one redirect of `abc` at instant 1: the cache now holds
`link:abc → http://old`. -/
def scState1 : AppState := (links_redirect true 1 "abc" scState0).2

/-- `scState1` after `u1` updates `abc` to `http://new` at instant 2. -/
def scState2 : AppState := (links_update 2 "u1" "abc" "http://new" scState1).2

/-- One unowned link `abc` created at instant 0 that expires at instant
1000000 (one second). -/
def scExpired : AppState :=
  (links_shorten 0 none "http://gone" 1000000 none "abc" ⟨[], []⟩).2

theorem scExpired_reachable : Reachable scExpired :=
  Reachable.shorten ⟨[], []⟩ 0 none "http://gone" 1000000 none "abc" Reachable.init

/-- The stored row of `scExpired`. -/
def scExpiredLink : Link :=
  { id := "abc", userId := none, url := "http://gone", accessCount := 0,
    lastAccessAt := none, createdAt := 0, updatedAt := 0, expireAt := 1000000 }

/-! ### The claims -/

/-- Claim C3: In every reachable state — whatever the cache holds from prior
redirects — resolving an id whose stored link satisfies `expire_at ≤ now`
answers 404 Not Found and never that link's destination: the cache-TTL bound
of the reachable states rules out a cache hit past `expire_at`, and the store
query filters on `Link.expire_at > now`. -/
theorem redirect_rejects_expired (s : AppState) (hs : Reachable s) (ck : Bool)
    (now : Nat) (l : Link) (hl : l ∈ s.store) (hexp : l.expireAt ≤ now) :
    (links_redirect ck now l.id s).1 = .error (.http 404 "Link not found") := by
  obtain ⟨hcb, hun⟩ := reachable_inv hs
  have hget : s.cache.find?
      (fun e => decide (e.key = "link:" ++ l.id) && decide (now < e.expiresAt)) = none := by
    rw [List.find?_eq_none]
    intro e he
    simp only [Bool.and_eq_true, decide_eq_true_eq]
    rintro ⟨hkey, hlt⟩
    obtain ⟨l', hl', hk', hle⟩ := hcb e he
    have hids : l'.id = l.id := link_key_inj (hk' ▸ hkey)
    have hll : l' = l := hun l' hl' l hl hids
    rw [hll] at hle
    omega
  have hstore : s.store.find?
      (fun x => decide (x.id = l.id) && decide (now < x.expireAt)) = none := by
    rw [List.find?_eq_none]
    intro x hx
    simp only [Bool.and_eq_true, decide_eq_true_eq]
    rintro ⟨hid, hlt⟩
    have hxl : x = l := hun x hx l hl hid
    rw [hxl] at hlt
    omega
  simp [links_redirect, redisGet, redirectStorePath, hget, hstore]

/-- Witness for C3: in the reachable state `scExpired`, resolving `abc` two
seconds after creation (one second past its expiry) yields 404. -/
theorem redirect_rejects_expired_witness :
    (links_redirect true 2000000 scExpiredLink.id scExpired).1
      = .error (.http 404 "Link not found") :=
  redirect_rejects_expired scExpired scExpired_reachable true 2000000
    scExpiredLink (by decide) (by decide)

/-- Claim C4: When the stats commit succeeds, a resolved redirect — cache hit or
store hit alike — rewrites the store to the map that adds exactly one to
`access_count` of the rows with the resolved id and stamps `last_access_at`
with the resolution instant, leaving every other row unchanged; a 404
resolution leaves the whole state untouched. -/
theorem redirect_stats_exactly_once (ck : Bool) (s : AppState) (now : Nat)
    (linkId : String) :
    (∀ url s2, links_redirect true now linkId s = (.ok url, s2) →
        s2.store = s.store.map fun l =>
          if l.id = linkId then
            { l with accessCount := l.accessCount + 1, lastAccessAt := some now }
          else l)
    ∧ (∀ s2, links_redirect ck now linkId s
          = (.error (.http 404 "Link not found"), s2) → s2 = s) := by
  constructor
  · intro url s2 h
    unfold links_redirect redirectStorePath at h
    repeat' split at h
    all_goals simp_all [recordAccess]
    all_goals (obtain ⟨h1, h2⟩ := h; rw [← h2])
  · intro s2 h
    unfold links_redirect redirectStorePath at h
    repeat' split at h
    all_goals simp_all

/-- Witness for C4: in `scState0` the redirect of `abc` at instant 1 resolves
from the store and bumps the counter to 1; a redirect of the absent id `nope`
returns 404 with the state unchanged. -/
theorem redirect_stats_exactly_once_witness :
    (scState1.store = scState0.store.map fun l =>
      if l.id = "abc" then
        { l with accessCount := l.accessCount + 1, lastAccessAt := some 1 }
      else l)
    ∧ scState0 = scState0 := by
  constructor
  · exact (redirect_stats_exactly_once true scState0 1 "abc").1 "http://old"
      scState1 (by decide)
  · exact (redirect_stats_exactly_once true scState0 7 "nope").2 scState0 (by decide)

/-- Claim C6, amended: The handler has no `try`/`except` around the stats
update: whenever the redirect would resolve (the stats commit succeeding), the
same request with a failing stats commit raises instead of returning the
already-determined destination. -/
theorem redirect_propagates_stat_failure (s : AppState) (now : Nat)
    (linkId url : String)
    (h : (links_redirect true now linkId s).1 = .ok url) :
    (links_redirect false now linkId s).1
      = .error (.unhandled "stat update commit failed") := by
  unfold links_redirect redirectStorePath at h ⊢
  repeat' split at h
  all_goals simp_all

/-- Witness for C6's amended theorem: `scState1` holds `abc` in the cache;
with the stats commit failing, the redirect at instant 3 errors rather than
returning `http://old`. -/
theorem redirect_propagates_stat_failure_witness :
    (links_redirect false 3 "abc" scState1).1
      = .error (.unhandled "stat update commit failed") :=
  redirect_propagates_stat_failure scState1 3 "abc" "http://old" (by decide)

/-- Counterexample to claim C6 as stated: in `scState1` the destination of
`abc` is determined (the commit-succeeding run returns it), yet when the
stats update fails the redirect does not return that URL — the failure is
propagated, not swallowed. -/
theorem stat_commit_failure_fails_redirect :
    (links_redirect true 3 "abc" scState1).1 = .ok "http://old"
    ∧ (links_redirect false 3 "abc" scState1).1
        ≠ .ok "http://old"
    ∧ (links_redirect false 3 "abc" scState1).1
        = .error (.unhandled "stat update commit failed") := by decide

/-- Claim C7: A create request whose `expire_at` lies strictly in the past is
answered with the 400 validation error before the store is consulted — the
state comes back untouched — and that error differs from the 409 conflict. -/
theorem shorten_past_expiry_rejected (now : Nat) (userId : Option String)
    (url : String) (expireAt : Nat) (alias? : Option String) (cand : String)
    (s : AppState) (h : expireAt < now) :
    links_shorten now userId url expireAt alias? cand s
      = (.error (.http 400 "expire_at must be in the future"), s)
    ∧ (ApiError.http 400 "expire_at must be in the future"
        ≠ ApiError.http 409 "Alias already exists") := by
  refine ⟨?_, by decide⟩
  unfold links_shorten
  rw [if_pos h]

/-- Witness for C7: creating a link at instant 5 with `expire_at` 4 is
rejected with the validation error and leaves `scState0` unchanged. -/
theorem shorten_past_expiry_rejected_witness :
    links_shorten 5 none "http://x" 4 none "qqqqqqqqqq" scState0
      = (.error (.http 400 "expire_at must be in the future"), scState0)
    ∧ (ApiError.http 400 "expire_at must be in the future"
        ≠ ApiError.http 409 "Alias already exists") :=
  shorten_past_expiry_rejected 5 none "http://x" 4 none "qqqqqqqqqq" scState0
    (by decide)

/-- Claim C8: For stats, update and delete, a state without the requested id and
a state where that id exists but is owned by someone else (or by nobody, a
NULL `user_id` matching no caller) produce literally the same response: the
404 Not Found, so the caller cannot tell the two apart. -/
theorem owner_scope_notfound_indistinguishable (s1 s2 : AppState)
    (userId linkId newUrl : String) (now : Nat)
    (h1 : ∀ l ∈ s1.store, l.id ≠ linkId)
    (h2 : ∀ l ∈ s2.store, l.id = linkId → l.userId ≠ some userId) :
    links_stats userId linkId s1 = links_stats userId linkId s2
    ∧ (links_update now userId linkId newUrl s1).1
        = (links_update now userId linkId newUrl s2).1
    ∧ (links_delete userId linkId s1).1 = (links_delete userId linkId s2).1
    ∧ links_stats userId linkId s1 = .error (.http 404 "Link not found") := by
  have f1 : findOwned linkId userId s1.store = none := by
    rw [findOwned, List.find?_eq_none]
    intro x hx
    simp only [decide_eq_true_eq]
    rintro ⟨hid, _⟩
    exact h1 x hx hid
  have f2 : findOwned linkId userId s2.store = none := by
    rw [findOwned, List.find?_eq_none]
    intro x hx
    simp only [decide_eq_true_eq]
    rintro ⟨hid, hown⟩
    exact h2 x hx hid hown
  refine ⟨?_, ?_, ?_, ?_⟩ <;>
    simp [links_stats, links_update, links_delete, f1, f2]

/-- Witness for C8: the empty state knows no id `abc`; in `scState0` the id
`abc` exists but belongs to `u1`, not to the caller `mallory` — all three
endpoints answer both situations with the same 404. -/
theorem owner_scope_notfound_indistinguishable_witness :
    links_stats "mallory" "abc" ⟨[], []⟩ = links_stats "mallory" "abc" scState0
    ∧ (links_update 9 "mallory" "abc" "http://x" (⟨[], []⟩ : AppState)).1
        = (links_update 9 "mallory" "abc" "http://x" scState0).1
    ∧ (links_delete "mallory" "abc" (⟨[], []⟩ : AppState)).1
        = (links_delete "mallory" "abc" scState0).1
    ∧ links_stats "mallory" "abc" ⟨[], []⟩
        = .error (.http 404 "Link not found") :=
  owner_scope_notfound_indistinguishable ⟨[], []⟩ scState0 "mallory" "abc"
    "http://x" 9 (by decide) (by decide)

/-- A degenerate random source: every draw picks alphabet index 0, so
`generate_short_code scPick 10` is the concrete candidate `aaaaaaaaaa`. -/
def scPick : Nat → Fin 62 := fun _ => ⟨0, by omega⟩

/-- A state already holding a link whose id is exactly the candidate the
generator would produce next. -/
def scCollide : AppState :=
  (links_shorten 0 none "http://first" 9000000000 none
    (generate_short_code scPick 10) ⟨[], []⟩).2

/-- Counterexample to claim C2 as stated: with no caller-supplied alias, a
store conflict on the generated candidate is not retried — the request fails
with the 409 conflict, surfaced to the caller. -/
theorem generated_candidate_conflict_surfaced :
    (links_shorten 5 none "http://second" 9000000000 none
        (generate_short_code scPick 10) scCollide).1
      = .error (.http 409 "Alias already exists") := by decide

/-- Claim C2, amended: `links_shorten` makes a single insert attempt: whenever
the candidate the column default produced already names a stored link, the
alias-less create request is answered with the 409 conflict (state unchanged);
there is no retry loop and no generation-exhaustion error. -/
theorem shorten_no_alias_conflict_propagates (s : AppState) (now : Nat)
    (userId : Option String) (url : String) (expireAt : Nat) (cand : String)
    (hok : ¬expireAt < now) (hdup : ∃ l ∈ s.store, l.id = cand) :
    links_shorten now userId url expireAt none cand s
      = (.error (.http 409 "Alias already exists"), s) := by
  unfold links_shorten
  rw [if_neg hok]
  have hsome : (s.store.find? fun l => decide (l.id = shortenId none cand)).isSome := by
    obtain ⟨l, hl, hid⟩ := hdup
    rw [List.find?_isSome]
    exact ⟨l, hl, by simp [shortenId, hid]⟩
  rw [if_pos hsome]

/-- Witness for C2's amended theorem: in `scCollide` the generated candidate
`aaaaaaaaaa` is already taken, and the alias-less create is answered 409. -/
theorem shorten_no_alias_conflict_propagates_witness :
    links_shorten 5 none "http://third" 9000000000 none "aaaaaaaaaa" scCollide
      = (.error (.http 409 "Alias already exists"), scCollide) :=
  shorten_no_alias_conflict_propagates scCollide 5 none "http://third"
    9000000000 "aaaaaaaaaa" (by decide) (by decide)

/-- Claim C9: `generate_short_code` built over any draw function returns a
string of exactly the requested length whose characters all come from the
62-symbol alphanumeric alphabet (it is total — no failure mode), and an
alias-less create that succeeds hands exactly that generated candidate out as
the new link's id, so generated ids inherit length and alphabet. -/
theorem generate_short_code_spec (pick : Nat → Fin 62) (k : Nat) :
    (generate_short_code pick k).length = k
    ∧ (∀ c ∈ (generate_short_code pick k).toList,
        c ∈ shortCodeAlphabet ∧ c.isAlphanum = true)
    ∧ (∀ s now userId url expireAt res s2,
        links_shorten now userId url expireAt none (generate_short_code pick k) s
          = (.ok res, s2) →
        res = generate_short_code pick k) := by
  have halpha : ∀ c ∈ shortCodeAlphabet, c.isAlphanum = true := by decide
  refine ⟨?_, ?_, ?_⟩
  · simp [generate_short_code, String.length]
  · intro c hc
    have hc' : c ∈ (List.range k).map fun i =>
        shortCodeAlphabet.get (Fin.cast shortCodeAlphabet_length.symm (pick i)) := by
      simpa [generate_short_code, String.toList] using hc
    obtain ⟨i, _, rfl⟩ := List.mem_map.mp hc'
    exact ⟨List.get_mem _ _ _, halpha _ (List.get_mem _ _ _)⟩
  · intro s now userId url expireAt res s2 h
    unfold links_shorten at h
    split at h
    · simp at h
    · split at h
      · simp at h
      · rw [Prod.mk.injEq] at h
        have := h.1
        simp only [shortenId] at this
        exact (Except.ok.injEq _ _).mp this.symm

/-- Witness for C9: with the constant draw `scPick` and length 10 the code is
the 10-character alphanumeric `aaaaaaaaaa`, and creating without an alias in
the empty state hands exactly it out. -/
theorem generate_short_code_spec_witness :
    (generate_short_code scPick 10).length = 10
    ∧ (∀ c ∈ (generate_short_code scPick 10).toList,
        c ∈ shortCodeAlphabet ∧ c.isAlphanum = true)
    ∧ "aaaaaaaaaa" = generate_short_code scPick 10 := by
  have h := generate_short_code_spec scPick 10
  exact ⟨h.1, h.2.1, h.2.2 ⟨[], []⟩ 0 none "http://first" 9000000000
    "aaaaaaaaaa" scCollide (by decide)⟩

/-- Claim C10: A create request carrying the empty string as its alias behaves
exactly like one carrying no alias at all — `if request.alias:` is false for
the empty string — and on success the new link's id is the generated
candidate, never the empty string. -/
theorem empty_alias_same_as_no_alias (now : Nat) (userId : Option String)
    (url : String) (expireAt : Nat) (cand : String) (s : AppState) :
    links_shorten now userId url expireAt (some "") cand s
      = links_shorten now userId url expireAt none cand s
    ∧ (∀ res s2, links_shorten now userId url expireAt (some "") cand s
          = (.ok res, s2) → res = cand) := by
  constructor
  · simp [links_shorten, shortenId]
  · intro res s2 h
    unfold links_shorten at h
    split at h
    · simp at h
    · split at h
      · simp at h
      · rw [Prod.mk.injEq] at h
        have := h.1
        simp only [shortenId, if_pos rfl] at this
        exact (Except.ok.injEq _ _).mp this.symm

/-- Witness for C10: in the empty state, a create request with alias `""` and
candidate `zzzzzzzzzz` equals the alias-less request and yields the candidate
as id. -/
theorem empty_alias_same_as_no_alias_witness :
    links_shorten 0 none "http://w" 9000000000 (some "") "zzzzzzzzzz" ⟨[], []⟩
      = links_shorten 0 none "http://w" 9000000000 none "zzzzzzzzzz" ⟨[], []⟩
    ∧ "zzzzzzzzzz" = "zzzzzzzzzz" := by
  have h := empty_alias_same_as_no_alias 0 none "http://w" 9000000000
    "zzzzzzzzzz" ⟨[], []⟩
  refine ⟨h.1, h.2 "zzzzzzzzzz"
    (links_shorten 0 none "http://w" 9000000000 (some "") "zzzzzzzzzz" ⟨[], []⟩).2
    ?_⟩
  decide

/-- One unowned link `abc` created at instant 0 that expires at instant
500000 — half a second of remaining lifetime. -/
def scShortLived : AppState :=
  (links_shorten 0 none "http://brief" 500000 none "abc" ⟨[], []⟩).2

/-- Counterexample to claim C5 as stated: resolving `abc` in `scShortLived` at
instant 0 hits the store (the link is resolvable for another half second),
yet the ttl the handler passes to `setex` is `int(0.5) = 0` — not strictly
positive — and redis rejects the call, killing the request. -/
theorem cache_ttl_zero_passed_to_setex :
    cacheTtlSecs 500000 0 = 0
    ∧ (links_redirect true 0 "abc" scShortLived).1
        = .error (.unhandled "invalid expire time in setex") := by decide

/-- Claim C5, amended: The ttl handed to `setex` is the truncated remaining
lifetime, so it can be zero; but any entry the redirect path actually adds to
the cache was inserted with a strictly positive `cacheTtlSecs` of a stored,
resolvable link, and its absolute expiry never exceeds that link's
`expire_at`. -/
theorem redirect_cache_population_bounded (ck : Bool) (now : Nat)
    (linkId : String) (s : AppState) (e : CacheEntry)
    (he : e ∈ (links_redirect ck now linkId s).2.cache) (hnew : e ∉ s.cache) :
    ∃ l ∈ s.store, l.id = linkId ∧ now < l.expireAt
      ∧ 0 < cacheTtlSecs l.expireAt now
      ∧ e.expiresAt = now + cacheTtlSecs l.expireAt now * 1000000
      ∧ e.expiresAt ≤ l.expireAt := by
  rcases redirect_cache_mem ck now linkId s e he with hold | ⟨l, hl, hid, hlt, hpos, hdef⟩
  · exact absurd hold hnew
  · refine ⟨l, hl, hid, hlt, hpos, ?_, ?_⟩
    · rw [hdef]
    · rw [hdef]
      exact ttl_le_remaining (Nat.le_of_lt hlt)

/-- Witness for C5's amended theorem: the entry the redirect of `abc` at
instant 0 adds to `scState0`'s empty cache expires exactly at the link's
`expire_at` 9000000000, with the positive ttl 9000 s. -/
theorem redirect_cache_population_bounded_witness :
    ∃ l ∈ scState0.store, l.id = "abc" ∧ 0 < l.expireAt
      ∧ 0 < cacheTtlSecs l.expireAt 0
      ∧ (9000000000 : Nat) = 0 + cacheTtlSecs l.expireAt 0 * 1000000
      ∧ (9000000000 : Nat) ≤ l.expireAt :=
  redirect_cache_population_bounded true 0 "abc" scState0
    ⟨"link:abc", "http://old", 9000000000⟩ (by decide) (by decide)

/-- Claim C1 is violated by the code (`links_update` never invalidates the
redis key, unlike `links_delete`): after `u1` successfully updates `abc` from
`http://old` to `http://new`, the cache entry written by the earlier redirect
survives, and the very next resolution still answers the stale
`http://old`, not the stored `http://new`. -/
theorem update_then_redirect_serves_stale_cache :
    (links_update 2 "u1" "abc" "http://new" scState1).1 = .ok ()
    ∧ (∃ l ∈ scState2.store, l.id = "abc" ∧ l.url = "http://new")
    ∧ scState2.cache = scState1.cache
    ∧ scState2.cache ≠ []
    ∧ (links_redirect true 3 "abc" scState2).1 = .ok "http://old" := by decide

end Shortener
